import Mathlib

attribute [local semireducible] Rat.mul Rat.add Rat.sub Rat.inv Rat.ofScientific

/-!
Verification of the resume-analysis backend (`services/analyzer.py` and
`services/pdf_generator.py`).  Python strings are modelled as Lean `String`
(a list of unicode scalar `Char`s), Python `float` arithmetic on the small
exact values produced here as `ℚ`, Python sets of strings as deduplicated
`List String`, and `bytes` as `List Nat`.  `round(x, 1)` is modelled as
exact banker's rounding at the tenths position (`pyRound1`).
-/

/-- Membership test for the character class `[a-zA-Z0-9+#]` of
`_WORD_SPLIT_RE`: the regex splits on any run of characters outside it. -/
def isWordChar (c : Char) : Bool :=
  decide ((65 ≤ c.toNat ∧ c.toNat ≤ 90) ∨ (97 ≤ c.toNat ∧ c.toNat ≤ 122) ∨
    (48 ≤ c.toNat ∧ c.toNat ≤ 57) ∨ c.toNat = 43 ∨ c.toNat = 35)

/-- ASCII lowercasing of one character, as `str.lower()` acts on the
ASCII-only tokens produced by the splitter. -/
def pyToLowerChar (c : Char) : Char :=
  if 65 ≤ c.toNat ∧ c.toNat ≤ 90 then Char.ofNat (c.toNat + 32) else c

/-- Lowercase a whole string. -/
def pyToLower (s : String) : String :=
  String.mk (s.data.map pyToLowerChar)

/-- Accumulator pass collecting maximal runs of word characters
(the non-empty pieces of `_WORD_SPLIT_RE.split`). -/
def splitRunsAux : List Char → List Char → List (List Char)
  | [], acc => if acc.isEmpty then [] else [acc.reverse]
  | c :: rest, acc =>
    if isWordChar c then splitRunsAux rest (c :: acc)
    else if acc.isEmpty then splitRunsAux rest []
    else acc.reverse :: splitRunsAux rest []

/-- Non-empty word-character runs of a character list, in order. -/
def splitRuns (cs : List Char) : List (List Char) :=
  splitRunsAux cs []

/-- The fixed skill vocabulary `KNOWN_SKILLS` (a Python set; only
membership is ever used, so a list is an adequate model). -/
def KNOWN_SKILLS : List String :=
  ["python", "fastapi", "flask", "django", "sql", "nosql", "mongodb", "postgresql",
   "docker", "kubernetes", "aws", "gcp", "azure", "ci/cd", "github actions",
   "unit testing", "pytest", "rest", "graphql", "redis", "celery", "rabbitmq",
   "nlp", "machine learning", "data science", "pandas", "numpy", "transformers"]

/-- The merge loop of `_normalize`: greedily join an adjacent token pair
into a two-word phrase when the pair is in `KNOWN_SKILLS`. -/
def mergeSkillTokens : List String → List String
  | [] => []
  | [t] => [t]
  | t :: nxt :: rest =>
    if (t ++ " " ++ nxt) ∈ KNOWN_SKILLS then
      (t ++ " " ++ nxt) :: mergeSkillTokens rest
    else
      t :: mergeSkillTokens (nxt :: rest)

/-- `_normalize`: split on non-word characters, lowercase each token,
then run the two-word merge pass. -/
def _normalize (text : String) : List String :=
  mergeSkillTokens ((splitRuns text.data).map (fun run => String.mk (run.map pyToLowerChar)))

/-- `_extract_skills`: the set of normalized tokens that are in the
vocabulary (a Python set, modelled as a deduplicated list). -/
def _extract_skills (text : String) : List String :=
  ((_normalize text).filter (fun t => decide (t ∈ KNOWN_SKILLS))).dedup

/-- Banker's rounding of a rational to an integer, the semantics of
Python's `round` on the exact values arising here. -/
def pyRoundHalfEven (q : ℚ) : ℤ :=
  if q - (⌊q⌋ : ℚ) < 1/2 then ⌊q⌋
  else if 1/2 < q - (⌊q⌋ : ℚ) then ⌊q⌋ + 1
  else if ⌊q⌋ % 2 = 0 then ⌊q⌋ else ⌊q⌋ + 1

/-- `round(q, 1)`: round at the tenths position. -/
def pyRound1 (q : ℚ) : ℚ :=
  (pyRoundHalfEven (10 * q) : ℚ) / 10

/-- `round(100.0 * overlap / denom, 1)` with `denom = max(1, d)`, the
common shape of both match-percent computations. -/
def overlapPercent (overlap d : ℕ) : ℚ :=
  pyRound1 (100 * (overlap : ℚ) / ((max 1 d : ℕ) : ℚ))

/-- Python `a or b` on lists (`b` when `a` is empty). -/
def pyOrList (a b : List String) : List String :=
  if a = [] then b else a

/-- Lexicographic comparison of character lists by code point,
the order `sorted` uses on Python strings. -/
def lexLe : List Char → List Char → Bool
  | [], _ => true
  | _ :: _, [] => false
  | a :: as, b :: bs =>
    if a.toNat < b.toNat then true
    else if b.toNat < a.toNat then false
    else lexLe as bs

/-- String comparison used by `sorted`. -/
def strLe (a b : String) : Bool :=
  lexLe a.data b.data

/-- Insertion into a sorted list. -/
def insertSorted (x : String) : List String → List String
  | [] => [x]
  | y :: ys => if strLe x y then x :: y :: ys else y :: insertSorted x ys

/-- `sorted` on a list of strings (insertion sort; stable, by code point). -/
def pySorted (l : List String) : List String :=
  l.foldr insertSorted []

/-- The record returned by `analyze_resume`. -/
structure AnalysisResult where
  match_percent : ℚ
  missing_skills : List String
  suggestions : List String
  ats_score : ℚ
deriving DecidableEq

/-- Tail of `analyze_resume` shared by both branches: the suggestion
rules in source order, the `suggestions or [default]` fallback, and the
ATS score `round(max(0, min(100, match_percent - penalty)), 1)` with
`penalty = min(30, 5 * len(missing_skills))`. -/
def analyze_core (resume_skills : List String) (match_percent : ℚ)
    (missing_skills : List String) : AnalysisResult :=
  { match_percent := match_percent
    missing_skills := missing_skills
    suggestions := pyOrList
      ((if match_percent < 60 then
          ["Highlight relevant experience and quantify achievements with metrics (%, $, time)."]
        else []) ++
       (if missing_skills ≠ [] then
          ["Consider learning or emphasizing: " ++ String.intercalate ", " (missing_skills.take 8)]
        else []) ++
       (if "python" ∈ resume_skills ∧ "fastapi" ∉ resume_skills then
          ["Add FastAPI projects or APIs to showcase backend skills."]
        else []) ++
       (if "docker" ∈ resume_skills ∧ "kubernetes" ∉ resume_skills then
          ["Explore Kubernetes basics to complement Docker skills."]
        else []))
      ["Great alignment. Ensure resume is concise (1-2 pages) and well-formatted."]
    ats_score :=
      pyRound1 (max 0 (min 100 (match_percent - min 30 (5 * (missing_skills.length : ℚ))))) }

/-- `analyze_resume`.  Set intersections are counted by filtering the
job-side list by membership in the resume-side list; as both lists are
deduplicated this equals the cardinality `len(a & b)` of the source. -/
def analyze_resume (resume_text job_description : String) : AnalysisResult :=
  if _extract_skills job_description = [] then
    analyze_core (_extract_skills resume_text)
      (overlapPercent
        (((_normalize job_description).dedup.filter
            (fun t => decide (t ∈ (_normalize resume_text).dedup))).length)
        ((_normalize job_description).dedup.length))
      []
  else
    analyze_core (_extract_skills resume_text)
      (overlapPercent
        (((_extract_skills job_description).filter
            (fun s => decide (s ∈ _extract_skills resume_text))).length)
        ((_extract_skills job_description).length))
      (pySorted ((_extract_skills job_description).filter
        (fun s => decide (s ∉ _extract_skills resume_text))))

/-- Whitespace characters removed by `str.strip()`: exactly the
characters for which Python's `str.isspace()` holds. -/
def isSpaceChar (c : Char) : Bool :=
  c = ' ' ∨ c = '\t' ∨ c = '\n' ∨ c = '\x0d' ∨ c = '\x0b' ∨ c = '\x0c' ∨
  c = '\x1c' ∨ c = '\x1d' ∨ c = '\x1e' ∨ c = '\x1f' ∨ c = '\x85' ∨ c = '\xa0' ∨
  c = '\u1680' ∨ ('\u2000' ≤ c ∧ c ≤ '\u200a') ∨ c = '\u2028' ∨ c = '\u2029' ∨
  c = '\u202f' ∨ c = '\u205f' ∨ c = '\u3000'

/-- `str.strip()` on a character list. -/
def pyStrip (l : List Char) : List Char :=
  ((l.dropWhile isSpaceChar).reverse.dropWhile isSpaceChar).reverse

/-- Line-break characters recognized by `str.splitlines()`. -/
def isLineBreak (c : Char) : Bool :=
  c = '\n' ∨ c = '\x0d' ∨ c = '\x0b' ∨ c = '\x0c' ∨
  c = '\x1c' ∨ c = '\x1d' ∨ c = '\x1e' ∨ c = '\x85' ∨
  c = '\u2028' ∨ c = '\u2029'

/-- Accumulator pass for `str.splitlines()`: a trailing break produces no
extra empty line.  Each break character breaks on its own, so a `\x0d\n`
pair yields one extra empty line compared to Python; the only caller
(`optimize_resume`) discards blank lines, so the composition agrees with
the source on every input. -/
def splitlinesAux : List Char → List Char → List (List Char)
  | [], acc => if acc.isEmpty then [] else [acc.reverse]
  | c :: rest, acc =>
    if isLineBreak c then acc.reverse :: splitlinesAux rest []
    else splitlinesAux rest (c :: acc)

/-- `str.splitlines()` of a string, each line as a character list. -/
def pySplitlines (s : String) : List (List Char) :=
  splitlinesAux s.data []

/-- `l.startswith("-")`. -/
def startsWithDash : List Char → Bool
  | [] => false
  | c :: _ => c = '-'

/-- `optimize_resume`: strip lines, drop blank ones, prefix a bullet to
each line not already starting with one, and prepend the fixed header. -/
def optimize_resume (resume_text : String) : String :=
  "SUMMARY\nResults-driven professional with measurable achievements.\n" ++
    String.mk (List.intercalate ['\n']
      ((((pySplitlines resume_text).map pyStrip).filter (fun l => !l.isEmpty)).map
        (fun l => if startsWithDash l then l else '-' :: ' ' :: l)))

/-- UTF-8 encoding of one unicode scalar value. -/
def utf8EncodeChar (c : Char) : List Nat :=
  let n := c.toNat
  if n < 128 then [n]
  else if n < 2048 then [192 + n / 64, 128 + n % 64]
  else if n < 65536 then [224 + n / 4096, 128 + (n / 64) % 64, 128 + n % 64]
  else [240 + n / 262144, 128 + (n / 4096) % 64, 128 + (n / 64) % 64, 128 + n % 64]

/-- `s.encode("utf-8")`, bytes as naturals below 256. -/
def utf8Encode (s : String) : List Nat :=
  (s.data.map utf8EncodeChar).flatten

/-- Python `a or b` on strings (`b` when `a` is empty). -/
def pyOrStr (a b : String) : String :=
  if a = "" then b else a

/-- Typed failures of the export path, following the spec's error kinds:
`invalidInput` is the `ValueError` raise, `unavailableFeature` the
`RuntimeError` raise for a missing optional dependency. -/
inductive ExportError where
  | invalidInput (msg : String)
  | unavailableFeature (msg : String)
deriving DecidableEq

/-- An export artifact: bytes, media type, filename. -/
structure ExportArtifact where
  bytes : List Nat
  media_type : String
  filename : String
deriving DecidableEq

/-- `generate_resume_bytes`.  The PDF and DOCX renderers are external
libraries (`fpdf`, `python-docx`) and enter as parameters; the flag
`docxAvailable` models the module-level `_DOCX_AVAILABLE` import probe. -/
def generate_resume_bytes (pdfRender docxRender : String → List Nat)
    (docxAvailable : Bool) (resume_text fmt : String) :
    Except ExportError ExportArtifact :=
  let f := pyToLower (pyOrStr fmt "pdf")
  if f = "pdf" then
    .ok ⟨pdfRender resume_text, "application/pdf", "resume.pdf"⟩
  else if f = "txt" then
    .ok ⟨utf8Encode (pyOrStr resume_text ""), "text/plain; charset=utf-8", "resume.txt"⟩
  else if f = "docx" then
    if !docxAvailable then
      .error (.unavailableFeature "DOCX export requires python-docx. Please install it.")
    else
      .ok ⟨docxRender (pyOrStr resume_text ""),
        "application/vnd.openxmlformats-officedocument.wordprocessingml.document",
        "resume.docx"⟩
  else
    .error (.invalidInput "Unsupported format")
/-! ### Rounding lemmas -/

/-- Banker's rounding is the identity on integers. -/
theorem pyRoundHalfEven_intCast (z : ℤ) : pyRoundHalfEven (z : ℚ) = z := by
  unfold pyRoundHalfEven
  rw [Int.floor_intCast, sub_self]
  norm_num

/-- Banker's rounding preserves nonnegativity. -/
theorem pyRoundHalfEven_nonneg {q : ℚ} (h : 0 ≤ q) : 0 ≤ pyRoundHalfEven q := by
  have hf : (0:ℤ) ≤ ⌊q⌋ := Int.floor_nonneg.mpr h
  unfold pyRoundHalfEven
  split
  · exact hf
  · split
    · omega
    · split
      · exact hf
      · omega

/-- Banker's rounding never exceeds an integer upper bound. -/
theorem pyRoundHalfEven_le_intCast {q : ℚ} {n : ℤ} (h : q ≤ (n:ℚ)) :
    pyRoundHalfEven q ≤ n := by
  have hfn : ⌊q⌋ ≤ n := by
    have h2 := Int.floor_mono h
    rwa [Int.floor_intCast] at h2
  unfold pyRoundHalfEven
  split
  · exact hfn
  · rename_i hge
    push_neg at hge
    have hflt : ⌊q⌋ < n := by
      have h3 : (⌊q⌋ : ℚ) + 1/2 ≤ (n:ℚ) := by linarith
      have h4 : (⌊q⌋ : ℚ) < (n:ℚ) := by linarith
      exact_mod_cast h4
    split
    · omega
    · split
      · exact hfn
      · omega

/-- Rounding at the tenths position preserves nonnegativity. -/
theorem pyRound1_nonneg {q : ℚ} (h : 0 ≤ q) : 0 ≤ pyRound1 q := by
  unfold pyRound1
  apply div_nonneg _ (by norm_num)
  exact_mod_cast pyRoundHalfEven_nonneg (by linarith)

/-- Rounding at the tenths position preserves the bound 100. -/
theorem pyRound1_le_100 {q : ℚ} (h : q ≤ 100) : pyRound1 q ≤ 100 := by
  unfold pyRound1
  rw [div_le_iff₀ (by norm_num : (0:ℚ) < 10)]
  have h1 : pyRoundHalfEven (10 * q) ≤ (1000:ℤ) :=
    pyRoundHalfEven_le_intCast (by push_cast; linarith)
  have h2 : ((pyRoundHalfEven (10 * q) : ℤ) : ℚ) ≤ 1000 := by exact_mod_cast h1
  linarith

/-- Rounding at the tenths position fixes integer multiples of one tenth. -/
theorem pyRound1_int_div_ten (w : ℤ) : pyRound1 ((w:ℚ)/10) = (w:ℚ)/10 := by
  unfold pyRound1
  have h : 10 * ((w:ℚ)/10) = (w:ℚ) := by
    rw [mul_comm]
    exact div_mul_cancel₀ _ (by norm_num)
  rw [h, pyRoundHalfEven_intCast]

/-- Both match-percent computations are nonnegative. -/
theorem overlapPercent_nonneg (o d : ℕ) : 0 ≤ overlapPercent o d := by
  unfold overlapPercent
  apply pyRound1_nonneg
  positivity

/-- Both match-percent computations are bounded by 100 whenever the
counted overlap does not exceed the set size entering the denominator. -/
theorem overlapPercent_le_100 {o d : ℕ} (h : o ≤ d) : overlapPercent o d ≤ 100 := by
  unfold overlapPercent
  apply pyRound1_le_100
  have hpos : (0:ℚ) < ((max 1 d : ℕ) : ℚ) := by
    exact_mod_cast Nat.lt_of_lt_of_le (by norm_num) (le_max_left 1 d)
  rw [div_le_iff₀ hpos]
  have h1 : (o:ℚ) ≤ ((max 1 d : ℕ) : ℚ) := by
    exact_mod_cast le_trans h (le_max_right 1 d)
  linarith

/-- The match percent is an integer number of tenths. -/
theorem overlapPercent_tenths (o d : ℕ) : ∃ z : ℤ, overlapPercent o d = (z:ℚ)/10 :=
  ⟨_, rfl⟩

/-! ### The analyzer: match percent, missing skills, ATS score -/

/-- Claim C2: for every pair of input texts `analyze_resume` returns a
match percent in the interval `[0, 100]` that is an exact multiple of one
tenth (one decimal place); the denominator of the underlying quotient is
`max 1 _ ≥ 1` by construction, so no division by zero occurs. -/
theorem analyze_resume_match_percent_bounds (r j : String) :
    0 ≤ (analyze_resume r j).match_percent ∧
    (analyze_resume r j).match_percent ≤ 100 ∧
    ∃ z : ℤ, (analyze_resume r j).match_percent = (z:ℚ)/10 := by
  unfold analyze_resume
  split <;>
    exact ⟨overlapPercent_nonneg _ _,
      overlapPercent_le_100 (List.length_filter_le _ _),
      overlapPercent_tenths _ _⟩

/-- The ATS score of `analyze_core` never exceeds the match percent it
was given, provided that percent is a nonnegative multiple of one tenth
(the penalty is nonnegative and the clamp keeps the value below it). -/
theorem analyze_core_ats_le (rs ms : List String) {mp : ℚ}
    (h0 : 0 ≤ mp) (hz : ∃ z : ℤ, mp = (z:ℚ)/10) :
    (analyze_core rs mp ms).ats_score ≤ mp := by
  obtain ⟨z, hzz⟩ := hz
  simp only [analyze_core]
  set p : ℚ := min 30 (5 * (ms.length : ℚ)) with hp
  have hp0 : 0 ≤ p := le_min (by norm_num) (by positivity)
  have hvle : max 0 (min 100 (mp - p)) ≤ mp := by
    apply max_le h0
    calc min 100 (mp - p) ≤ mp - p := min_le_right _ _
      _ ≤ mp := by linarith
  have hk : ∃ k : ℤ, p = (k:ℚ) := by
    rcases le_total (30:ℚ) (5 * (ms.length : ℚ)) with h | h
    · exact ⟨30, by rw [hp, min_eq_left h]; norm_num⟩
    · exact ⟨5 * ms.length, by rw [hp, min_eq_right h]; push_cast; ring⟩
  obtain ⟨k, hkk⟩ := hk
  have hw : ∃ w : ℤ, max 0 (min 100 (mp - p)) = (w:ℚ)/10 := by
    rcases le_total (mp - p) 0 with h1 | h1
    · exact ⟨0, by rw [min_eq_right (by linarith : mp - p ≤ 100), max_eq_left h1]; norm_num⟩
    · rcases le_total (mp - p) 100 with h2 | h2
      · exact ⟨z - 10 * k, by rw [min_eq_right h2, max_eq_right h1, hzz, hkk]; push_cast; ring⟩
      · exact ⟨1000, by rw [min_eq_left h2, max_eq_right (by norm_num : (0:ℚ) ≤ 100)]; norm_num⟩
  obtain ⟨w, hww⟩ := hw
  rw [hww] at hvle ⊢
  rw [pyRound1_int_div_ten]
  exact hvle

/-- Claim C4: for every pair of input texts the ATS score never exceeds
the match percent, the score being the rounded clamp of the match percent
minus the nonnegative penalty `min(30, 5 * len(missing_skills))`. -/
theorem analyze_resume_ats_le_match (r j : String) :
    (analyze_resume r j).ats_score ≤ (analyze_resume r j).match_percent := by
  unfold analyze_resume
  split <;>
    exact analyze_core_ats_le _ _ (overlapPercent_nonneg _ _) (overlapPercent_tenths _ _)

/-- Claim C3: whenever the job description yields no recognized skills,
`analyze_resume` takes the raw-token fallback branch, so the missing-skill
list is empty and the match percent is the rounded raw-token overlap ratio
over all normalized tokens, with the denominator floored at 1. -/
theorem analyze_resume_fallback (r j : String) (h : _extract_skills j = []) :
    (analyze_resume r j).missing_skills = [] ∧
    (analyze_resume r j).match_percent =
      pyRound1 (100 * ((((_normalize j).dedup.filter
          (fun t => decide (t ∈ (_normalize r).dedup))).length : ℕ) : ℚ) /
        ((max 1 (_normalize j).dedup.length : ℕ) : ℚ)) := by
  unfold analyze_resume
  rw [if_pos h]
  exact ⟨rfl, rfl⟩

/-- Witness for C3 at a job description with no recognized skills. -/
theorem analyze_resume_fallback_witness :
    _extract_skills "hello there friend" = [] ∧
    (analyze_resume "python developer" "hello there friend").missing_skills = [] :=
  ⟨by decide, (analyze_resume_fallback "python developer" "hello there friend" (by decide)).1⟩

/-- Claim C1: on the spec's worked example the analyzer reports a 50.0
percent match, `kubernetes` as the only missing skill, an ATS score of
45.0, and the Kubernetes-advice suggestion (docker present, kubernetes
absent). -/
theorem analyze_resume_example :
    (analyze_resume "I have Python and Docker experience"
        "Looking for Python and Kubernetes skills").match_percent = 50 ∧
    (analyze_resume "I have Python and Docker experience"
        "Looking for Python and Kubernetes skills").missing_skills = ["kubernetes"] ∧
    (analyze_resume "I have Python and Docker experience"
        "Looking for Python and Kubernetes skills").ats_score = 45 ∧
    "Explore Kubernetes basics to complement Docker skills." ∈
      (analyze_resume "I have Python and Docker experience"
        "Looking for Python and Kubernetes skills").suggestions :=
  ⟨by decide, by decide, by decide, by decide⟩

/-! ### The document exporter -/

/-- Claim C7: the `txt` format returns exactly the UTF-8 encoding of the
raw text verbatim with media type `text/plain; charset=utf-8` and
filename `resume.txt`; the empty text encodes as empty bytes, and the
example text `A\n\nB` encodes to its UTF-8 byte values. -/
theorem generate_resume_bytes_txt (pdfRender docxRender : String → List Nat)
    (docxAvailable : Bool) (text : String) :
    generate_resume_bytes pdfRender docxRender docxAvailable text "txt" =
      .ok ⟨utf8Encode text, "text/plain; charset=utf-8", "resume.txt"⟩ ∧
    utf8Encode "" = [] ∧
    utf8Encode "A\n\nB" = [65, 10, 10, 66] := by
  refine ⟨?_, by decide, by decide⟩
  have h : pyOrStr text "" = text := by
    unfold pyOrStr
    split
    · simp_all
    · rfl
  have hf : pyToLower (pyOrStr "txt" "pdf") = "txt" := by decide
  simp only [generate_resume_bytes, hf, h]
  rw [if_neg (show ("txt" : String) ≠ "pdf" by decide)]
  rw [if_pos trivial]

/-- Claim C8: a non-empty format string lowercasing to none of `pdf`,
`docx`, `txt` makes `generate_resume_bytes` fail with the
`Unsupported format` invalid-input error and produce no artifact. -/
theorem generate_resume_bytes_unsupported (pdfRender docxRender : String → List Nat)
    (docxAvailable : Bool) (text fmt : String) (h0 : fmt ≠ "")
    (h1 : pyToLower fmt ≠ "pdf") (h2 : pyToLower fmt ≠ "docx") (h3 : pyToLower fmt ≠ "txt") :
    generate_resume_bytes pdfRender docxRender docxAvailable text fmt =
      .error (.invalidInput "Unsupported format") := by
  have ho : pyOrStr fmt "pdf" = fmt := by
    unfold pyOrStr
    rw [if_neg h0]
  simp only [generate_resume_bytes, ho]
  rw [if_neg h1, if_neg h3, if_neg h2]

/-- Witness for C8 at the spec's example format `xml`. -/
theorem generate_resume_bytes_unsupported_witness :
    generate_resume_bytes (fun _ => []) (fun _ => []) true "hello" "xml" =
      .error (.invalidInput "Unsupported format") :=
  generate_resume_bytes_unsupported (fun _ => []) (fun _ => []) true "hello" "xml"
    (by decide) (by decide) (by decide) (by decide)

/-- Claim C9: with the document-authoring capability absent, the `docx`
format fails with the feature-unavailable error (the missing optional
dependency message), never producing bytes. -/
theorem generate_resume_bytes_docx_unavailable (pdfRender docxRender : String → List Nat)
    (text : String) :
    generate_resume_bytes pdfRender docxRender false text "docx" =
      .error (.unavailableFeature "DOCX export requires python-docx. Please install it.") := by
  have hf : pyToLower (pyOrStr "docx" "pdf") = "docx" := by decide
  simp only [generate_resume_bytes, hf]
  rw [if_neg (show ("docx" : String) ≠ "pdf" by decide),
    if_neg (show ("docx" : String) ≠ "txt" by decide)]
  rw [if_pos trivial]
  rfl

/-! ### The optimizer -/

/-- Every character of every line returned by `splitlinesAux` comes from
the input or from the accumulator. -/
theorem splitlinesAux_chars : ∀ (cs acc : List Char), ∀ l ∈ splitlinesAux cs acc,
    ∀ c ∈ l, c ∈ cs ∨ c ∈ acc
  | [], acc => by
    intro l hl c hc
    unfold splitlinesAux at hl
    split at hl
    · simp at hl
    · simp only [List.mem_singleton] at hl
      subst hl
      exact Or.inr (List.mem_reverse.mp hc)
  | ch :: rest, acc => by
    intro l hl c hc
    unfold splitlinesAux at hl
    split at hl
    · rcases List.mem_cons.mp hl with h | h
      · subst h
        exact Or.inr (List.mem_reverse.mp hc)
      · rcases splitlinesAux_chars rest [] l h c hc with h2 | h2
        · exact Or.inl (List.mem_cons_of_mem _ h2)
        · simp at h2
    · rcases splitlinesAux_chars rest (ch :: acc) l hl c hc with h2 | h2
      · exact Or.inl (List.mem_cons_of_mem _ h2)
      · rcases List.mem_cons.mp h2 with h3 | h3
        · exact Or.inl (h3 ▸ List.mem_cons_self _ _)
        · exact Or.inr h3

/-- Stripping a line of whitespace characters only yields the empty line. -/
theorem pyStrip_eq_nil {l : List Char} (h : ∀ c ∈ l, isSpaceChar c = true) :
    pyStrip l = [] := by
  unfold pyStrip
  rw [List.dropWhile_eq_nil_iff.mpr h]
  rfl

/-- Claim C10: on empty or whitespace-only resume text, `optimize_resume`
returns exactly the fixed two-line header with no bullet lines appended. -/
theorem optimize_resume_whitespace_only (t : String)
    (h : ∀ c ∈ t.data, isSpaceChar c = true) :
    optimize_resume t =
      "SUMMARY\nResults-driven professional with measurable achievements.\n" := by
  unfold optimize_resume
  have hlines : ((pySplitlines t).map pyStrip).filter (fun l => !l.isEmpty) = [] := by
    rw [List.filter_eq_nil_iff]
    intro l hl
    obtain ⟨l0, hl0, rfl⟩ := List.mem_map.mp hl
    have hall : ∀ c ∈ l0, isSpaceChar c = true := by
      intro c hc
      rcases splitlinesAux_chars t.data [] l0 hl0 c hc with h1 | h1
      · exact h c h1
      · simp at h1
    rw [pyStrip_eq_nil hall]
    decide
  rw [hlines]
  decide

/-- Witness for C10 at a whitespace-only input. -/
theorem optimize_resume_whitespace_only_witness :
    (∀ c ∈ (" \n\t " : String).data, isSpaceChar c = true) ∧
    optimize_resume " \n\t " =
      "SUMMARY\nResults-driven professional with measurable achievements.\n" :=
  ⟨by decide, optimize_resume_whitespace_only " \n\t " (by decide)⟩

/-- Counterexample to claim C5 as stated: the input `- a` is a single
trimmed line already starting with the bullet marker, yet applying
`optimize_resume` twice differs from applying it once, because the second
pass bulletizes the two header lines prepended by the first. -/
theorem optimize_resume_not_idempotent :
    (∀ l ∈ pySplitlines "- a", pyStrip l = l ∧ startsWithDash l = true) ∧
    optimize_resume (optimize_resume "- a") ≠ optimize_resume "- a" :=
  ⟨by decide, by decide⟩

/-- Claim C5 (amended): on input whose every line is already trimmed and
already starts with the bullet marker (hence non-blank), the line pass of
`optimize_resume` is the identity: the output is exactly the fixed header
followed by the input's lines rejoined, unchanged.  Full double
application is not idempotent, since the prepended header lines are
themselves bulletized by a second pass. -/
theorem optimize_resume_bulleted (t : String)
    (h : ∀ l ∈ pySplitlines t, pyStrip l = l ∧ startsWithDash l = true) :
    optimize_resume t =
      "SUMMARY\nResults-driven professional with measurable achievements.\n" ++
        String.mk (List.intercalate ['\n'] (pySplitlines t)) := by
  unfold optimize_resume
  have h1 : (pySplitlines t).map pyStrip = pySplitlines t := by
    calc (pySplitlines t).map pyStrip
        = (pySplitlines t).map id := List.map_congr_left (fun l hl => (h l hl).1)
      _ = pySplitlines t := List.map_id _
  have h2 : (pySplitlines t).filter (fun l => !l.isEmpty) = pySplitlines t := by
    rw [List.filter_eq_self]
    intro l hl
    have hd := (h l hl).2
    cases l with
    | nil => exact absurd hd (by decide)
    | cons c cs => rfl
  have h3 : (pySplitlines t).map
      (fun l => if startsWithDash l then l else '-' :: ' ' :: l) = pySplitlines t := by
    calc (pySplitlines t).map (fun l => if startsWithDash l then l else '-' :: ' ' :: l)
        = (pySplitlines t).map id := List.map_congr_left (fun l hl => if_pos ((h l hl).2))
      _ = pySplitlines t := List.map_id _
  rw [h1, h2, h3]

/-- Witness for the amended C5 at the single bulleted line `- a`. -/
theorem optimize_resume_bulleted_witness :
    (∀ l ∈ pySplitlines "- a", pyStrip l = l ∧ startsWithDash l = true) ∧
    optimize_resume "- a" =
      "SUMMARY\nResults-driven professional with measurable achievements.\n" ++
        String.mk (List.intercalate ['\n'] (pySplitlines "- a")) :=
  ⟨by decide, optimize_resume_bulleted "- a" (by decide)⟩

/-! ### Unreachability of the `ci/cd` vocabulary entry -/

/-- Lowercasing a word character never produces a slash: the uppercase
range maps into the lowercase range, everything else is unchanged and a
slash is not a word character. -/
theorem pyToLowerChar_ne_slash {c : Char} (h : isWordChar c = true) :
    pyToLowerChar c ≠ '/' := by
  unfold pyToLowerChar
  split
  · rename_i hAZ
    obtain ⟨ha, hz⟩ := hAZ
    intro heq
    generalize hg : c.toNat = n at ha hz heq
    interval_cases n <;> exact absurd heq (by decide)
  · intro heq
    subst heq
    exact absurd h (by decide)

/-- Every character of every run returned by `splitRunsAux` is a word
character, provided the accumulator holds only word characters. -/
theorem splitRunsAux_word_chars : ∀ (cs acc : List Char),
    (∀ a ∈ acc, isWordChar a = true) →
    ∀ run ∈ splitRunsAux cs acc, ∀ c ∈ run, isWordChar c = true
  | [], acc => by
    intro hacc run hrun c hc
    unfold splitRunsAux at hrun
    split at hrun
    · simp at hrun
    · simp only [List.mem_singleton] at hrun
      subst hrun
      exact hacc c (List.mem_reverse.mp hc)
  | ch :: rest, acc => by
    intro hacc run hrun c hc
    unfold splitRunsAux at hrun
    split at hrun
    · rename_i hw
      refine splitRunsAux_word_chars rest (ch :: acc) ?_ run hrun c hc
      intro a ha
      rcases List.mem_cons.mp ha with h | h
      · exact h ▸ hw
      · exact hacc a h
    · split at hrun
      · exact splitRunsAux_word_chars rest [] (by simp) run hrun c hc
      · rcases List.mem_cons.mp hrun with h | h
        · subst h
          exact hacc c (List.mem_reverse.mp hc)
        · exact splitRunsAux_word_chars rest [] (by simp) run h c hc

/-- Every token produced by `mergeSkillTokens` is either an original
token or a two-token phrase joined by a single space. -/
theorem mem_mergeSkillTokens : ∀ (ts : List String), ∀ s ∈ mergeSkillTokens ts,
    s ∈ ts ∨ ∃ a b : String, s = a ++ " " ++ b
  | [] => by simp [mergeSkillTokens]
  | [t] => by simp [mergeSkillTokens]
  | t :: nxt :: rest => by
    intro s hs
    simp only [mergeSkillTokens] at hs
    split at hs
    · rcases List.mem_cons.mp hs with h | h
      · exact Or.inr ⟨t, nxt, h⟩
      · rcases mem_mergeSkillTokens rest s h with h2 | h2
        · exact Or.inl (List.mem_cons_of_mem _ (List.mem_cons_of_mem _ h2))
        · exact Or.inr h2
    · rcases List.mem_cons.mp hs with h | h
      · exact Or.inl (h ▸ List.mem_cons_self _ _)
      · rcases mem_mergeSkillTokens (nxt :: rest) s h with h2 | h2
        · exact Or.inl (List.mem_cons_of_mem _ h2)
        · exact Or.inr h2

/-- The token `ci/cd` is never produced by `_normalize`: raw tokens
consist of word characters (no slash survives lowercasing) and merged
tokens contain a space, which `ci/cd` does not. -/
theorem ci_cd_not_mem_normalize (text : String) :
    "ci/cd" ∉ _normalize text := by
  intro hmem
  unfold _normalize at hmem
  rcases mem_mergeSkillTokens _ _ hmem with h | ⟨a, b, hab⟩
  · obtain ⟨run, hrun, heq⟩ := List.mem_map.mp h
    have hslash : '/' ∈ ("ci/cd" : String).data := by decide
    rw [← heq] at hslash
    obtain ⟨c, hc, hceq⟩ := List.mem_map.mp hslash
    exact pyToLowerChar_ne_slash
      (splitRunsAux_word_chars text.data [] (by simp) run hrun c hc) hceq
  · have hsp : ' ' ∈ ("ci/cd" : String).data := by
      rw [hab]
      simp [String.data_append]
    exact absurd hsp (by decide)

/-- Claim C6: the vocabulary entry `ci/cd` is unreachable: although it is
a member of `KNOWN_SKILLS`, no input text ever yields it in the extracted
skill set, because the tokenizer splits at the slash and the two-word
merge joins tokens with a space. -/
theorem ci_cd_skill_unreachable :
    "ci/cd" ∈ KNOWN_SKILLS ∧
    ∀ t : String, ("ci/cd" ∈ _extract_skills t) = False := by
  refine ⟨by decide, fun t => ?_⟩
  apply eq_false
  intro hmem
  unfold _extract_skills at hmem
  exact ci_cd_not_mem_normalize t (List.mem_filter.mp (List.mem_dedup.mp hmem)).1
